import Mathlib

/-!
Shallow embedding of the gocache in-memory key-value store
(`cacheable.go`, the revision carrying the statistics ledger).

Go `uint` counters are modelled as `Nat` reduced modulo `2 ^ 64`;
`time.Duration` and `time.Time` are modelled as `Int` (nanoseconds),
with the current clock reading passed explicitly to every operation
that calls `time.Now()`.  The external size oracle `SizeOf` is passed
as explicit function parameters (`szK` for keys, `szV` for values).
A `*time.Timer` eviction handle is modelled by a `Bool` recording
whether an eviction callback is currently armed.
The Go map is modelled as an association list with lookup by key.
-/

namespace GC

/-- Modulus of Go's 64-bit `uint`. -/
def W : Nat := 2 ^ 64

/-- Go `uint` increment/addition: wraps modulo `2 ^ 64`. -/
def uAdd (a b : Nat) : Nat := (a + b) % W

/-- Go `uint` decrement/subtraction: wraps modulo `2 ^ 64`. -/
def uSub (a b : Nat) : Nat := (a + (W - b % W)) % W

/-- The Go conversion `int(u)` of a 64-bit `uint` value. -/
def intOfUint (n : Nat) : Int :=
  if n < 2 ^ 63 then (n : Int) else (n : Int) - (W : Int)

/-- `Stats` from the repository: cache performance metrics. -/
structure Stats where
  Hits : Nat
  Misses : Nat
  Keys : Nat
  KeySize : Nat
  ValueSize : Nat
deriving Repr, DecidableEq

/-- The all-zero statistics record (`&Stats{0,0,0,0,0}`). -/
def zeroStats : Stats := ⟨0, 0, 0, 0, 0⟩

/-- `cacheValue` from `types.go`: stored value, cached byte size,
TTL, absolute expiry date, and whether an eviction timer is armed. -/
structure cacheValue (V : Type) where
  value : V
  size : Nat
  ttl : Int
  expiryDate : Int
  timer : Bool
deriving Repr, DecidableEq

/-- `(*cacheValue).Expired`: `v.ttl > 0 && v.expiryDate.Before(now)`. -/
def cacheValue.Expired {V : Type} (v : cacheValue V) (now : Int) : Bool :=
  decide (0 < v.ttl) && decide (v.expiryDate < now)

/-- The `Cache` structure: configuration, data map and statistics. -/
structure Cache (V : Type) where
  stdTtl : Int
  deleteOnExpire : Bool
  maxKeys : Int
  data : List (String × cacheValue V)
  stats : Stats
deriving Repr, DecidableEq

/-- The two error values of `errors.go`. -/
inductive CacheError where
  | keyNotFound
  | cacheFull
deriving Repr, DecidableEq

/-- `New()` with no options: default configuration, empty data, zero stats. -/
def Cache.New {V : Type} : Cache V :=
  { stdTtl := 0, deleteOnExpire := true, maxKeys := -1, data := [], stats := zeroStats }

/-- `WithStdTtl` option from `options.go`. -/
def WithStdTtl {V : Type} (t : Int) (c : Cache V) : Cache V :=
  if t > -1 then { c with stdTtl := t } else c

/-- `WithDeleteOnExpire` option from `options.go`. -/
def WithDeleteOnExpire {V : Type} (b : Bool) (c : Cache V) : Cache V :=
  { c with deleteOnExpire := b }

/-- `WithMaxKeys` option from `options.go`. -/
def WithMaxKeys {V : Type} (m : Int) (c : Cache V) : Cache V :=
  if m > -1 then { c with maxKeys := m } else c

/-- Go `delete(c.data, key)`: remove the binding for `key`. -/
def eraseKey {V : Type} (key : String) (l : List (String × cacheValue V)) :
    List (String × cacheValue V) :=
  l.filter (fun p => p.1 != key)

/-- `SetWithTtl` from `cacheable.go`: capacity guard on the ledger's
`Keys` counter, overwrite path retracting the old value size, new-key
path incrementing all three aggregates, then entry construction with
resolved TTL and conditional timer arming. -/
def Cache.SetWithTtl {V : Type} (szK : String → Nat) (szV : V → Nat)
    (c : Cache V) (key : String) (value : V) (ttl now : Int) :
    Cache V × Option CacheError :=
  match c.data.lookup key with
  | none =>
    if c.maxKeys ≠ -1 ∧ intOfUint c.stats.Keys ≥ c.maxKeys then
      (c, some .cacheFull)
    else
      let valueSize := szV value
      let stats' := { c.stats with
        Keys := uAdd c.stats.Keys 1,
        KeySize := uAdd c.stats.KeySize (szK key),
        ValueSize := uAdd c.stats.ValueSize valueSize }
      let keyTtl := if ttl > -1 then ttl else c.stdTtl
      let val : cacheValue V :=
        { value := value, size := valueSize, ttl := keyTtl,
          expiryDate := now + keyTtl,
          timer := decide (0 < keyTtl) && c.deleteOnExpire }
      ({ c with data := (key, val) :: c.data, stats := stats' }, none)
  | some old =>
    let valueSize := szV value
    let stats' := { c.stats with ValueSize := uSub c.stats.ValueSize old.size }
    let keyTtl := if ttl > -1 then ttl else c.stdTtl
    let val : cacheValue V :=
      { value := value, size := valueSize, ttl := keyTtl,
        expiryDate := now + keyTtl,
        timer := decide (0 < keyTtl) && c.deleteOnExpire }
    ({ c with data := (key, val) :: eraseKey key c.data, stats := stats' }, none)

/-- `Set(key, value)` is `SetWithTtl(key, value, -1)`. -/
def Cache.Set {V : Type} (szK : String → Nat) (szV : V → Nat)
    (c : Cache V) (key : String) (value : V) (now : Int) :
    Cache V × Option CacheError :=
  Cache.SetWithTtl szK szV c key value (-1) now

/-- `Get` from `cacheable.go`: miss (absent or expired) increments
`Misses` and fails with `KeyNotFound`; a live hit increments `Hits`
and returns the stored value.  The data map is never touched. -/
def Cache.Get {V : Type} (c : Cache V) (key : String) (now : Int) :
    Cache V × Except CacheError V :=
  match c.data.lookup key with
  | none =>
    ({ c with stats := { c.stats with Misses := uAdd c.stats.Misses 1 } },
     .error .keyNotFound)
  | some val =>
    if val.Expired now then
      ({ c with stats := { c.stats with Misses := uAdd c.stats.Misses 1 } },
       .error .keyNotFound)
    else
      ({ c with stats := { c.stats with Hits := uAdd c.stats.Hits 1 } },
       .ok val.value)

/-- `GetAndDelete` from `cacheable.go`: the same matching as `Get`;
on a live hit it also removes the entry and decrements the ledger. -/
def Cache.GetAndDelete {V : Type} (szK : String → Nat)
    (c : Cache V) (key : String) (now : Int) :
    Cache V × Except CacheError V :=
  match c.data.lookup key with
  | none =>
    ({ c with stats := { c.stats with Misses := uAdd c.stats.Misses 1 } },
     .error .keyNotFound)
  | some val =>
    if val.Expired now then
      ({ c with stats := { c.stats with Misses := uAdd c.stats.Misses 1 } },
       .error .keyNotFound)
    else
      ({ c with
          data := eraseKey key c.data,
          stats := { c.stats with
            Hits := uAdd c.stats.Hits 1,
            Keys := uSub c.stats.Keys 1,
            KeySize := uSub c.stats.KeySize (szK key),
            ValueSize := uSub c.stats.ValueSize val.size } },
       .ok val.value)

/-- `Delete` from `cacheable.go`: removes the binding if present
(expired or not), decrementing the ledger, and reports the count. -/
def Cache.Delete {V : Type} (szK : String → Nat)
    (c : Cache V) (key : String) : Cache V × Nat :=
  match c.data.lookup key with
  | none => (c, 0)
  | some val =>
    ({ c with
        data := eraseKey key c.data,
        stats := { c.stats with
          Keys := uSub c.stats.Keys 1,
          KeySize := uSub c.stats.KeySize (szK key),
          ValueSize := uSub c.stats.ValueSize val.size } },
     1)

/-- `ChangeTtl` from `cacheable.go`: no-op on absent or expired keys;
negative TTL deletes the entry; otherwise the entry's TTL and expiry
are rewritten and a timer is armed only for a positive TTL with
delete-on-expire enabled. -/
def Cache.ChangeTtl {V : Type} (szK : String → Nat)
    (c : Cache V) (key : String) (ttl now : Int) : Cache V × Bool :=
  match c.data.lookup key with
  | none => (c, false)
  | some val =>
    if val.Expired now then (c, false)
    else if ttl < 0 then
      ({ c with
          data := eraseKey key c.data,
          stats := { c.stats with
            Keys := uSub c.stats.Keys 1,
            KeySize := uSub c.stats.KeySize (szK key),
            ValueSize := uSub c.stats.ValueSize val.size } },
       true)
    else
      let val' : cacheValue V :=
        { val with
          ttl := ttl,
          expiryDate := now + ttl,
          timer := decide (0 < ttl) && c.deleteOnExpire }
      ({ c with data := (key, val') :: eraseKey key c.data }, true)

/-- `Keys` from `cacheable.go`: `slices.Sorted(maps.Keys(c.data))`. -/
def Cache.Keys {V : Type} (c : Cache V) : List String :=
  (c.data.map Prod.fst).mergeSort (fun a b => decide (a ≤ b))

/-- `Has` from `cacheable.go`: reports whether the key is bound in the
map; the entry's expiry state is not consulted. -/
def Cache.Has {V : Type} (c : Cache V) (key : String) : Bool :=
  (c.data.lookup key).isSome

/-- `Clear` from `cacheable.go`: drops every binding and installs a
fresh all-zero statistics record. -/
def Cache.Clear {V : Type} (c : Cache V) : Cache V :=
  { c with data := [], stats := zeroStats }

/-- `ClearStats` from `cacheable.go`: installs a fresh all-zero
statistics record, leaving the data map untouched. -/
def Cache.ClearStats {V : Type} (c : Cache V) : Cache V :=
  { c with stats := zeroStats }

/-! ### Helper lemmas about the association-list map -/

theorem lookup_isSome_iff {V : Type} (key : String) (l : List (String × cacheValue V)) :
    (l.lookup key).isSome = true ↔ key ∈ l.map Prod.fst := by
  induction l with
  | nil => simp
  | cons p t ih =>
    obtain ⟨k, v⟩ := p
    by_cases h : key = k
    · subst h; simp [List.lookup_cons]
    · have hb : (key == k) = false := by simp [h]
      simp only [List.lookup_cons, hb, List.map_cons, List.mem_cons]
      simp [ih, h]

theorem lookup_eraseKey_self {V : Type} (key : String) (l : List (String × cacheValue V)) :
    (eraseKey key l).lookup key = none := by
  induction l with
  | nil => simp [eraseKey]
  | cons p t ih =>
    obtain ⟨k, v⟩ := p
    by_cases h : k = key
    · subst h; simpa [eraseKey] using ih
    · have hb : (k != key) = true := by simp [h]
      have hb' : (key == k) = false := by
        simp only [beq_eq_false_iff_ne, ne_eq]
        exact fun hh => h hh.symm
      simp only [eraseKey, List.filter_cons, hb, if_true, List.lookup_cons, hb'] at ih ⊢
      exact ih

/-! ### Claim theorems -/

/-- C3: `Get` on an absent key, or a present-but-expired key, increments
`Misses` and fails with `KeyNotFound`, leaving the data map (hence every
entry) and the configuration — in particular the delete-on-expire flag —
unchanged; on a present, live key it increments `Hits` and returns the
stored value without mutating the map. -/
theorem Get_spec {V : Type} (c : Cache V) (key : String) (now : Int) :
    (c.Get key now).1.data = c.data ∧
    (c.Get key now).1.stdTtl = c.stdTtl ∧
    (c.Get key now).1.deleteOnExpire = c.deleteOnExpire ∧
    (c.Get key now).1.maxKeys = c.maxKeys ∧
    (match c.data.lookup key with
     | none =>
       (c.Get key now).1.stats = { c.stats with Misses := uAdd c.stats.Misses 1 } ∧
       (c.Get key now).2 = .error .keyNotFound
     | some val =>
       if val.Expired now then
         (c.Get key now).1.stats = { c.stats with Misses := uAdd c.stats.Misses 1 } ∧
         (c.Get key now).2 = .error .keyNotFound
       else
         (c.Get key now).1.stats = { c.stats with Hits := uAdd c.stats.Hits 1 } ∧
         (c.Get key now).2 = .ok val.value) := by
  cases h : c.data.lookup key with
  | none => simp [Cache.Get, h]
  | some val =>
    by_cases he : val.Expired now <;> simp [Cache.Get, h, he]

/-- C7: `Delete` never fails: when a mapping for the key exists (expired or
not) it removes the binding, decrements `Keys`/`KeySize`/`ValueSize` by that
entry's contribution and returns `1`, and deleting the same key again returns
`0`; on a missing key it is a no-op returning `0`. -/
theorem Delete_spec {V : Type} (szK : String → Nat) (c : Cache V) (key : String) :
    (match c.data.lookup key with
     | none => c.Delete szK key = (c, 0)
     | some val =>
       (c.Delete szK key).2 = 1 ∧
       (c.Delete szK key).1.data = eraseKey key c.data ∧
       (c.Delete szK key).1.stats = { c.stats with
          Keys := uSub c.stats.Keys 1,
          KeySize := uSub c.stats.KeySize (szK key),
          ValueSize := uSub c.stats.ValueSize val.size } ∧
       ((c.Delete szK key).1.Delete szK key) = ((c.Delete szK key).1, 0)) := by
  cases h : c.data.lookup key with
  | none => simp [Cache.Delete, h]
  | some val =>
    refine ⟨?_, ?_, ?_, ?_⟩ <;>
      simp [Cache.Delete, h, lookup_eraseKey_self]

/-- C8: `Clear` empties the mapping — afterwards `Keys` is the empty list and
`Has` is `false` for every key — and resets all five statistics counters to
zero; `ClearStats` resets the same five counters to zero while leaving the
stored entries unchanged. -/
theorem Clear_and_ClearStats_spec {V : Type} (c : Cache V) :
    (c.Clear).data = [] ∧ (c.Clear).stats = zeroStats ∧
    (c.Clear).Keys = [] ∧ (∀ k, (c.Clear).Has k = false) ∧
    (c.ClearStats).stats = zeroStats ∧ (c.ClearStats).data = c.data := by
  refine ⟨rfl, rfl, ?_, ?_, rfl, rfl⟩
  · simp [Cache.Keys, Cache.Clear]
  · intro k; simp [Cache.Has, Cache.Clear]

/-- An entry whose `ttl` field is `0` can never report as expired. -/
theorem Expired_zero_ttl {V : Type} (x : V) (sz : Nat) (e : Int) (tm : Bool) (t : Int) :
    cacheValue.Expired (⟨x, sz, 0, e, tm⟩ : cacheValue V) t = false := by
  simp [cacheValue.Expired]

/-- C4: `SetWithTtl` fails with `CacheFull` exactly when the key is absent,
`maxKeys` is not `-1`, and the ledger's key count is at least `maxKeys`;
overwriting an existing key never fails; and a `CacheFull` failure leaves the
whole cache (map and ledger) unchanged. -/
theorem SetWithTtl_cacheFull_iff {V : Type} (szK : String → Nat) (szV : V → Nat)
    (c : Cache V) (key : String) (value : V) (ttl now : Int) :
    ((c.SetWithTtl szK szV key value ttl now).2 = some .cacheFull ↔
      (c.data.lookup key = none ∧ c.maxKeys ≠ -1 ∧ intOfUint c.stats.Keys ≥ c.maxKeys)) ∧
    ((c.data.lookup key).isSome = true →
      (c.SetWithTtl szK szV key value ttl now).2 = none) ∧
    ((c.SetWithTtl szK szV key value ttl now).2 = some .cacheFull →
      (c.SetWithTtl szK szV key value ttl now).1 = c) := by
  cases h : c.data.lookup key with
  | none =>
    by_cases hg : c.maxKeys ≠ -1 ∧ intOfUint c.stats.Keys ≥ c.maxKeys
    · simp [Cache.SetWithTtl, h, hg]
    · simp [Cache.SetWithTtl, h, hg]
  | some old => simp [Cache.SetWithTtl, h]

/-- C5: `ChangeTtl` returns `false` with no change when the key is absent or
its entry already expired; otherwise it returns `true` after deleting the
entry and decrementing the ledger when the new TTL is negative; clearing
expiry — so the entry can never expire — and arming no timer when it is zero;
or rewriting `ttl`/`expiryDate` to `now + ttl` and arming an eviction exactly
when delete-on-expire is enabled, when it is positive. -/
theorem ChangeTtl_spec {V : Type} (szK : String → Nat) (c : Cache V)
    (key : String) (ttl now : Int) :
    (match c.data.lookup key with
     | none => c.ChangeTtl szK key ttl now = (c, false)
     | some val =>
       if val.Expired now then c.ChangeTtl szK key ttl now = (c, false)
       else if ttl < 0 then
         (c.ChangeTtl szK key ttl now).2 = true ∧
         (c.ChangeTtl szK key ttl now).1.data = eraseKey key c.data ∧
         (c.ChangeTtl szK key ttl now).1.stats = { c.stats with
            Keys := uSub c.stats.Keys 1,
            KeySize := uSub c.stats.KeySize (szK key),
            ValueSize := uSub c.stats.ValueSize val.size }
       else if ttl = 0 then
         (c.ChangeTtl szK key ttl now).2 = true ∧
         (c.ChangeTtl szK key ttl now).1.stats = c.stats ∧
         (c.ChangeTtl szK key ttl now).1.data =
           (key, (⟨val.value, val.size, 0, now, false⟩ : cacheValue V)) ::
             eraseKey key c.data ∧
         (∀ t : Int,
           cacheValue.Expired (⟨val.value, val.size, 0, now, false⟩ : cacheValue V) t = false)
       else
         (c.ChangeTtl szK key ttl now).2 = true ∧
         (c.ChangeTtl szK key ttl now).1.stats = c.stats ∧
         (c.ChangeTtl szK key ttl now).1.data =
           (key, (⟨val.value, val.size, ttl, now + ttl, c.deleteOnExpire⟩ : cacheValue V)) ::
             eraseKey key c.data) := by
  cases h : c.data.lookup key with
  | none => simp [Cache.ChangeTtl, h]
  | some val =>
    by_cases he : val.Expired now
    · simp [Cache.ChangeTtl, h, he]
    · rw [Bool.not_eq_true] at he
      by_cases hneg : ttl < 0
      · simp [Cache.ChangeTtl, h, he, hneg]
      · by_cases hzero : ttl = 0
        · subst hzero
          simp [Cache.ChangeTtl, h, he, Expired_zero_ttl]
        · have hpos : (0 : Int) < ttl := by omega
          simp [Cache.ChangeTtl, h, he, hneg, hzero, hpos]

/-- C6: `GetAndDelete` matches exactly as `Get` does: an absent or expired key
increments `Misses` and fails with `KeyNotFound` leaving the map untouched;
a present live key increments `Hits` once, returns the stored value, removes
the binding, and decrements `Keys`/`KeySize`/`ValueSize` by that entry's
contribution. -/
theorem GetAndDelete_spec {V : Type} (szK : String → Nat) (c : Cache V)
    (key : String) (now : Int) :
    (match c.data.lookup key with
     | none =>
       c.GetAndDelete szK key now =
         ({ c with stats := { c.stats with Misses := uAdd c.stats.Misses 1 } },
          .error .keyNotFound)
     | some val =>
       if val.Expired now then
         c.GetAndDelete szK key now =
           ({ c with stats := { c.stats with Misses := uAdd c.stats.Misses 1 } },
            .error .keyNotFound)
       else
         (c.GetAndDelete szK key now).2 = .ok val.value ∧
         (c.GetAndDelete szK key now).1.data = eraseKey key c.data ∧
         (c.GetAndDelete szK key now).1.stats = { c.stats with
            Hits := uAdd c.stats.Hits 1,
            Keys := uSub c.stats.Keys 1,
            KeySize := uSub c.stats.KeySize (szK key),
            ValueSize := uSub c.stats.ValueSize val.size }) := by
  cases h : c.data.lookup key with
  | none => simp [Cache.GetAndDelete, h]
  | some val =>
    by_cases he : val.Expired now <;> simp [Cache.GetAndDelete, h, he]

/-- C2 (amended): `Has` returns `true` exactly when the key is bound in the
map, regardless of the entry's expiry state; it reads the map only and leaves
every statistics counter untouched. -/
theorem Has_iff_mem {V : Type} (c : Cache V) (key : String) :
    c.Has key = true ↔ key ∈ c.data.map Prod.fst :=
  lookup_isSome_iff key c.data

/-- Key-size oracle used in concrete evaluations. -/
def exSzK (s : String) : Nat := s.length

/-- Value-size oracle used in concrete evaluations over `Nat` payloads. -/
def exSzV (v : Nat) : Nat := v

/-- A store built with delete-on-expire disabled, holding one entry inserted
at time `0` with TTL `5`. -/
def exPassive : Cache Nat :=
  ((WithDeleteOnExpire false (Cache.New : Cache Nat)).SetWithTtl exSzK exSzV "k" 7 5 0).1

/-- C2 counterexample: in `exPassive` at time `10` the entry for `"k"` is
present but expired, yet `Has` returns `true` — refuting "Has returns true
iff the key is present and not expired". -/
theorem Has_expired_counterexample :
    (exPassive.data.lookup "k").map (fun v => v.Expired 10) = some true ∧
    exPassive.Has "k" = true := by decide

/-- C9: `Keys` returns exactly the keys currently bound in the map — a
permutation of the map's key list, with no liveness filter, so expired but
not-yet-deleted entries are included — sorted in lexicographic order. -/
theorem Keys_sorted_perm {V : Type} (c : Cache V) :
    c.Keys.Pairwise (· ≤ ·) ∧ c.Keys.Perm (c.data.map Prod.fst) ∧
    (∀ k, k ∈ c.Keys ↔ k ∈ c.data.map Prod.fst) := by
  have hs := @List.sorted_mergeSort String (fun a b => decide (a ≤ b))
      (fun a b c hab hbc => by
        simp only [decide_eq_true_eq] at hab hbc ⊢
        exact le_trans hab hbc)
      (fun a b => by
        simp only [Bool.or_eq_true, decide_eq_true_eq]
        exact le_total a b)
      (c.data.map Prod.fst)
  refine ⟨?_, ?_, ?_⟩
  · exact hs.imp (by simp)
  · exact List.mergeSort_perm _ _
  · intro k
    simp [Cache.Keys]

/-- C1: evaluating the overwrite path of `SetWithTtl` — after inserting key
`"k"` with a value of size `3` and then overwriting it with a value of size
`5`, the stored entry's size is `5` while the ledger's `ValueSize` reads `0`:
the overwrite subtracted the old value's size but never added the new one, so
`ValueSize` no longer equals the sum of the size oracle over stored values. -/
theorem overwrite_valueSize_bug :
    (((Cache.New : Cache Nat).SetWithTtl exSzK exSzV "k" 3 (-1) 0).1.SetWithTtl
        exSzK exSzV "k" 5 (-1) 0).1.stats.ValueSize = 0 ∧
    ((((Cache.New : Cache Nat).SetWithTtl exSzK exSzV "k" 3 (-1) 0).1.SetWithTtl
        exSzK exSzV "k" 5 (-1) 0).1.data.map (fun p => p.2.size)).sum = 5 := by
  decide

/-- C10 counterexample: with `maxKeys = 0` and a map holding `0` entries,
`ClearStats` followed by `SetWithTtl` of a fresh key still fails with
`CacheFull`, so the claim does not hold for every `N ≥ 0`. -/
theorem clearStats_capacity_counterexample :
    ((WithMaxKeys 0 (Cache.New : Cache Nat)).ClearStats.SetWithTtl
        exSzK exSzV "fresh" 1 (-1) 0).2 = some CacheError.cacheFull ∧
    (WithMaxKeys 0 (Cache.New : Cache Nat)).data.length = 0 ∧
    (WithMaxKeys 0 (Cache.New : Cache Nat)).maxKeys = 0 := by
  decide

/-- C10 (amended to `N ≥ 1`): the capacity guard compares the ledger's `Keys`
counter, not the map size — for a store with `maxKeys = N ≥ 1` whose map holds
`N` entries, `ClearStats` (which zeroes the counter without removing entries)
followed by `SetWithTtl` of a fresh key succeeds without `CacheFull`, leaving
the map with `N + 1 > N` entries. -/
theorem clearStats_defeats_capacity {V : Type} (szK : String → Nat) (szV : V → Nat)
    (c : Cache V) (key : String) (value : V) (ttl now : Int)
    (hN : 1 ≤ c.maxKeys) (hlen : (c.data.length : Int) = c.maxKeys)
    (habs : c.data.lookup key = none) :
    ((c.ClearStats).SetWithTtl szK szV key value ttl now).2 = none ∧
    (((c.ClearStats).SetWithTtl szK szV key value ttl now).1.data.length : Int) =
      c.maxKeys + 1 := by
  have h0 : intOfUint 0 = 0 := by norm_num [intOfUint]
  have hguard : ¬(c.maxKeys ≠ -1 ∧ intOfUint (0 : Nat) ≥ c.maxKeys) := by
    rw [h0]
    rintro ⟨-, hge⟩
    omega
  constructor
  · simp [Cache.SetWithTtl, Cache.ClearStats, zeroStats, habs, hguard]
  · simp [Cache.SetWithTtl, Cache.ClearStats, zeroStats, habs, hguard, hlen]

/-- A store with `maxKeys = 1` holding one entry, its ledger counting it. -/
def exOne : Cache Nat :=
  ((WithMaxKeys 1 (Cache.New : Cache Nat)).SetWithTtl exSzK exSzV "a" 2 (-1) 0).1

/-- Witness for `SetWithTtl_cacheFull_iff` at the full store `exOne` and the
fresh key `"b"`: the guard's three conjuncts hold there, so the insertion
fails with `CacheFull`. -/
theorem SetWithTtl_cacheFull_iff_witness :
    (exOne.SetWithTtl exSzK exSzV "b" 1 (-1) 0).2 = some CacheError.cacheFull :=
  (SetWithTtl_cacheFull_iff exSzK exSzV exOne "b" 1 (-1) 0).1.mpr
    ⟨by decide, by decide, by decide⟩

/-- Witness for `clearStats_defeats_capacity` at the concrete store `exOne`
and fresh key `"b"`. -/
theorem clearStats_defeats_capacity_witness :
    (1 ≤ exOne.maxKeys ∧ (exOne.data.length : Int) = exOne.maxKeys ∧
      exOne.data.lookup "b" = none) ∧
    ((exOne.ClearStats).SetWithTtl exSzK exSzV "b" 1 (-1) 0).2 = none ∧
    (((exOne.ClearStats).SetWithTtl exSzK exSzV "b" 1 (-1) 0).1.data.length : Int) =
      exOne.maxKeys + 1 :=
  ⟨⟨by decide, by decide, by decide⟩,
    clearStats_defeats_capacity exSzK exSzV exOne "b" 1 (-1) 0
      (by decide) (by decide) (by decide)⟩

end GC
